import Mathlib

/-!
Shallow embedding of the rigid-body physics core in `src/physics/physics.cpp`
(madrona). Machine floats are modelled by exact reals; vector and quaternion
primitives from the (out-of-src) math headers are modelled from the spec, while
every function of the physics file itself is translated line by line. The
claim theorems at the end of the file settle the frozen claims about the
narrowphase, the XPBD solver and the solver bookkeeping.
-/

noncomputable section

namespace Madrona

/-- Modelled from the spec: the 3-component float vector `math::Vector3`
(the math header is not part of the provided sources). -/
@[ext] structure Vec3 where
  x : ℝ
  y : ℝ
  z : ℝ

namespace Vec3

instance : Zero Vec3 := ⟨⟨0, 0, 0⟩⟩
instance : Add Vec3 := ⟨fun a b => ⟨a.x + b.x, a.y + b.y, a.z + b.z⟩⟩
instance : Sub Vec3 := ⟨fun a b => ⟨a.x - b.x, a.y - b.y, a.z - b.z⟩⟩
instance : Neg Vec3 := ⟨fun a => ⟨-a.x, -a.y, -a.z⟩⟩
instance : SMul ℝ Vec3 := ⟨fun s a => ⟨s * a.x, s * a.y, s * a.z⟩⟩
instance : Mul Vec3 := ⟨fun a b => ⟨a.x * b.x, a.y * b.y, a.z * b.z⟩⟩

@[simp] theorem zero_x : (0 : Vec3).x = 0 := rfl
@[simp] theorem zero_y : (0 : Vec3).y = 0 := rfl
@[simp] theorem zero_z : (0 : Vec3).z = 0 := rfl
@[simp] theorem add_x (a b : Vec3) : (a + b).x = a.x + b.x := rfl
@[simp] theorem add_y (a b : Vec3) : (a + b).y = a.y + b.y := rfl
@[simp] theorem add_z (a b : Vec3) : (a + b).z = a.z + b.z := rfl
@[simp] theorem sub_x (a b : Vec3) : (a - b).x = a.x - b.x := rfl
@[simp] theorem sub_y (a b : Vec3) : (a - b).y = a.y - b.y := rfl
@[simp] theorem sub_z (a b : Vec3) : (a - b).z = a.z - b.z := rfl
@[simp] theorem neg_x (a : Vec3) : (-a).x = -a.x := rfl
@[simp] theorem neg_y (a : Vec3) : (-a).y = -a.y := rfl
@[simp] theorem neg_z (a : Vec3) : (-a).z = -a.z := rfl
@[simp] theorem smul_x (s : ℝ) (a : Vec3) : (s • a).x = s * a.x := rfl
@[simp] theorem smul_y (s : ℝ) (a : Vec3) : (s • a).y = s * a.y := rfl
@[simp] theorem smul_z (s : ℝ) (a : Vec3) : (s • a).z = s * a.z := rfl
@[simp] theorem mul_x (a b : Vec3) : (a * b).x = a.x * b.x := rfl
@[simp] theorem mul_y (a b : Vec3) : (a * b).y = a.y * b.y := rfl
@[simp] theorem mul_z (a b : Vec3) : (a * b).z = a.z * b.z := rfl
@[simp] theorem mk_x (a b c : ℝ) : (Vec3.mk a b c).x = a := rfl
@[simp] theorem mk_y (a b c : ℝ) : (Vec3.mk a b c).y = b := rfl
@[simp] theorem mk_z (a b c : ℝ) : (Vec3.mk a b c).z = c := rfl

/-- Modelled from the spec: the float dot product of `math::Vector3`. -/
def dot (a b : Vec3) : ℝ := a.x * b.x + a.y * b.y + a.z * b.z

/-- Modelled from the spec: the float cross product of `math::Vector3`. -/
def cross (a b : Vec3) : Vec3 :=
  ⟨a.y * b.z - a.z * b.y, a.z * b.x - a.x * b.z, a.x * b.y - a.y * b.x⟩

/-- Modelled from the spec: `Vector3::length`, the Euclidean norm. -/
def length (v : Vec3) : ℝ := Real.sqrt (dot v v)

/-- Modelled from the spec: componentwise division of a vector by a scalar
(`v / s` in the source). -/
def sdiv (v : Vec3) (s : ℝ) : Vec3 := ⟨v.x / s, v.y / s, v.z / s⟩

@[simp] theorem sdiv_x (v : Vec3) (s : ℝ) : (sdiv v s).x = v.x / s := rfl
@[simp] theorem sdiv_y (v : Vec3) (s : ℝ) : (sdiv v s).y = v.y / s := rfl
@[simp] theorem sdiv_z (v : Vec3) (s : ℝ) : (sdiv v s).z = v.z / s := rfl

@[simp] theorem smul_zero (s : ℝ) : s • (0 : Vec3) = 0 := by ext <;> simp
@[simp] theorem zero_smul (v : Vec3) : (0 : ℝ) • v = 0 := by ext <;> simp
@[simp] theorem add_zero (v : Vec3) : v + 0 = v := by ext <;> simp
@[simp] theorem zero_add (v : Vec3) : 0 + v = v := by ext <;> simp
@[simp] theorem sub_zero (v : Vec3) : v - 0 = v := by ext <;> simp
@[simp] theorem cross_zero_left (v : Vec3) : cross 0 v = 0 := by
  ext <;> simp [cross]
@[simp] theorem cross_zero_right (v : Vec3) : cross v 0 = 0 := by
  ext <;> simp [cross]

theorem dot_self_nonneg (v : Vec3) : 0 ≤ dot v v := by
  unfold dot
  have hx : 0 ≤ v.x * v.x := mul_self_nonneg _
  have hy : 0 ≤ v.y * v.y := mul_self_nonneg _
  have hz : 0 ≤ v.z * v.z := mul_self_nonneg _
  linarith

end Vec3

/-- Modelled from the spec: the 4-component float vector `math::Vector4`. -/
@[ext] structure Vec4 where
  x : ℝ
  y : ℝ
  z : ℝ
  w : ℝ

/-- Zero-initialized `Vector4`, the `{}` slots of an unfilled contact point. -/
def zero4 : Vec4 := ⟨0, 0, 0, 0⟩

/-- Modelled from the spec: `makeVector4(v, w)` packs a point and a depth. -/
def makeVector4 (v : Vec3) (w : ℝ) : Vec4 := ⟨v.x, v.y, v.z, w⟩

/-- Modelled from the spec: the `xyz()` projection of a `Vector4`. -/
def Vec4.xyz (v : Vec4) : Vec3 := ⟨v.x, v.y, v.z⟩

@[simp] theorem makeVector4_w (v : Vec3) (w : ℝ) : (makeVector4 v w).w = w := rfl
@[simp] theorem makeVector4_xyz (v : Vec3) (w : ℝ) :
    (makeVector4 v w).xyz = v := by ext <;> rfl

/-- Modelled from the spec: the orientation quaternion `math::Quat`
(w scalar part, xyz vector part). -/
@[ext] structure Quat where
  w : ℝ
  x : ℝ
  y : ℝ
  z : ℝ

namespace Quat

instance : Add Quat := ⟨fun a b => ⟨a.w + b.w, a.x + b.x, a.y + b.y, a.z + b.z⟩⟩
instance : Sub Quat := ⟨fun a b => ⟨a.w - b.w, a.x - b.x, a.y - b.y, a.z - b.z⟩⟩

/-- Modelled from the spec: the Hamilton product of two quaternions. -/
instance : Mul Quat := ⟨fun a b =>
  ⟨a.w * b.w - a.x * b.x - a.y * b.y - a.z * b.z,
   a.w * b.x + a.x * b.w + a.y * b.z - a.z * b.y,
   a.w * b.y - a.x * b.z + a.y * b.w + a.z * b.x,
   a.w * b.z + a.x * b.y - a.y * b.x + a.z * b.w⟩⟩

@[simp] theorem qadd_w (a b : Quat) : (a + b).w = a.w + b.w := rfl
@[simp] theorem qadd_x (a b : Quat) : (a + b).x = a.x + b.x := rfl
@[simp] theorem qadd_y (a b : Quat) : (a + b).y = a.y + b.y := rfl
@[simp] theorem qadd_z (a b : Quat) : (a + b).z = a.z + b.z := rfl
@[simp] theorem qsub_w (a b : Quat) : (a - b).w = a.w - b.w := rfl
@[simp] theorem qsub_x (a b : Quat) : (a - b).x = a.x - b.x := rfl
@[simp] theorem qsub_y (a b : Quat) : (a - b).y = a.y - b.y := rfl
@[simp] theorem qsub_z (a b : Quat) : (a - b).z = a.z - b.z := rfl
@[simp] theorem qmul_w (a b : Quat) :
    (a * b).w = a.w * b.w - a.x * b.x - a.y * b.y - a.z * b.z := rfl
@[simp] theorem qmul_x (a b : Quat) :
    (a * b).x = a.w * b.x + a.x * b.w + a.y * b.z - a.z * b.y := rfl
@[simp] theorem qmul_y (a b : Quat) :
    (a * b).y = a.w * b.y - a.x * b.z + a.y * b.w + a.z * b.x := rfl
@[simp] theorem qmul_z (a b : Quat) :
    (a * b).z = a.w * b.z + a.x * b.y - a.y * b.x + a.z * b.w := rfl
@[simp] theorem qmk_w (a b c d : ℝ) : (Quat.mk a b c d).w = a := rfl
@[simp] theorem qmk_x (a b c d : ℝ) : (Quat.mk a b c d).x = b := rfl
@[simp] theorem qmk_y (a b c d : ℝ) : (Quat.mk a b c d).y = c := rfl
@[simp] theorem qmk_z (a b c d : ℝ) : (Quat.mk a b c d).z = d := rfl

/-- Modelled from the spec: the conjugate of a quaternion. -/
def conj (q : Quat) : Quat := ⟨q.w, -q.x, -q.y, -q.z⟩

/-- Modelled from the spec: `Quat::inv()`; orientation quaternions are kept
unit-norm by the solver, so the inverse is the conjugate. -/
def inv (q : Quat) : Quat := conj q

/-- Squared norm of a quaternion. -/
def normSq (q : Quat) : ℝ := q.w * q.w + q.x * q.x + q.y * q.y + q.z * q.z

/-- Modelled from the spec: `Quat::normalize()`, division by the norm. -/
def normalize (q : Quat) : Quat :=
  let l := Real.sqrt (normSq q)
  ⟨q.w / l, q.x / l, q.y / l, q.z / l⟩

/-- Modelled from the spec: `Quat::fromAngularVec`, the pure quaternion with
the given vector part. -/
def fromAngularVec (v : Vec3) : Quat := ⟨0, v.x, v.y, v.z⟩

/-- Modelled from the spec: `Quat::rotateVec`, rotation of a vector by an
orientation quaternion (the sandwich `q (0,v) q̄`). -/
def rotateVec (q : Quat) (v : Vec3) : Vec3 :=
  let p := q * ⟨0, v.x, v.y, v.z⟩ * conj q
  ⟨p.x, p.y, p.z⟩

/-- The identity orientation. -/
def identity : Quat := ⟨1, 0, 0, 0⟩

@[simp] theorem rotateVec_identity (v : Vec3) : rotateVec identity v = v := by
  ext <;> simp [rotateVec, identity, conj]

end Quat

/-- Componentwise product with a diagonal matrix (`solver::multDiag`). -/
def multDiag (diag v : Vec3) : Vec3 :=
  ⟨diag.x * v.x, diag.y * v.y, diag.z * v.z⟩

@[simp] theorem multDiag_zero (d : Vec3) : multDiag d 0 = 0 := by
  ext <;> simp [multDiag]

/-- The tagged union `CollisionPrimitive` (sphere | hull | plane); a hull
carries its half-edge mesh, modelled by its vertex list. -/
inductive CollisionPrimitive where
  | sphere (radius : ℝ)
  | hull (halfEdgeMesh : List Vec3)
  | plane

/-- The numeric value of `CollisionPrimitive::Type` used as the dispatch rank
(sphere = 1, hull = 2, plane = 4). -/
def CollisionPrimitive.rank : CollisionPrimitive → ℕ
  | .sphere _ => 1
  | .hull _ => 2
  | .plane => 4

/-- Union member access `prim->sphere.radius` (meaningful on spheres only). -/
def CollisionPrimitive.sphereRadius : CollisionPrimitive → ℝ
  | .sphere r => r
  | _ => 0

/-- Union member access `prim->hull.halfEdgeMesh` (meaningful on hulls only). -/
def CollisionPrimitive.hullMesh : CollisionPrimitive → List Vec3
  | .hull m => m
  | _ => []

/-- The per-entity data the narrowphase reads through the ECS: the entity id
and its ObjectID primitive, Position, Rotation and Scale components. -/
structure EntityInfo where
  ent : ℕ
  prim : CollisionPrimitive
  pos : Vec3
  rot : Quat
  scale : Vec3

/-- The solver `Contact` record; `points` holds the four `Vector4` slots of
the source array (unfilled slots zero-initialized). -/
structure Contact where
  ref : ℕ
  alt : ℕ
  points : List Vec4
  numPoints : ℕ
  normal : Vec3
  lambdaN : ℝ

/-- `geometry::CollisionMesh`: the half-edge mesh it points at, the
transformed world-space vertices, and the center. -/
structure CollisionMesh where
  halfEdge : List Vec3
  vertices : List Vec3
  center : Vec3

/-- The SAT contact manifold returned by `doSAT` / `doSATPlane`. -/
structure Manifold where
  contactPoints : List Vec4
  numContactPoints : ℕ
  normal : Vec3
  aIsReference : Bool

/-- `geometry::Plane` as passed to `doSATPlane`. -/
structure GeometryPlane where
  point : Vec3
  normal : Vec3

/-- What one `runNarrowphase` invocation appends: contacts added to
`SolverData.contacts` and `CollisionEvent` pairs created. -/
structure NarrowphaseResult where
  contacts : List Contact
  events : List (ℕ × ℕ)

/-- The `transformVertex` lambda of the hull branches:
`e_position + e_rotation.rotateVec(e_scale * v)` (scale before rotation). -/
def transformVertex (e : EntityInfo) (v : Vec3) : Vec3 :=
  e.pos + e.rot.rotateVec (e.scale * v)

/-- Construction of a `geometry::CollisionMesh` from a half-edge mesh and an
entity: every mesh vertex is transformed by that entity's transform. -/
def buildCollisionMesh (hedge : List Vec3) (e : EntityInfo) (center : Vec3) :
    CollisionMesh :=
  { halfEdge := hedge, vertices := hedge.map (transformVertex e), center := center }

/-- The `SphereSphere` case of `runNarrowphase`; `origA`, `origB` are the
candidate pair's entities before canonicalization (the CollisionEvent records
those). -/
def sphereSphereCase (origA origB : ℕ) (a b : EntityInfo) : NarrowphaseResult :=
  let aRadius := a.prim.sphereRadius
  let bRadius := b.prim.sphereRadius
  let toB := b.pos - a.pos
  let dist := toB.length
  if 0 < dist ∧ dist < aRadius + bRadius then
    let mid := Vec3.sdiv toB 2
    let toBNormal := Vec3.sdiv toB dist
    { contacts := [{ ref := a.ent, alt := b.ent,
                     points := [makeVector4 (a.pos + mid) (dist / 2),
                                zero4, zero4, zero4],
                     numPoints := 1, normal := toBNormal, lambdaN := 0 }],
      events := [(origA, origB)] }
  else
    { contacts := [], events := [] }

/-- The `SpherePlane` case of `runNarrowphase`. -/
def spherePlaneCase (a b : EntityInfo) : NarrowphaseResult :=
  let radius := a.prim.sphereRadius
  let baseNormal : Vec3 := ⟨0, 0, 1⟩
  let planeNormal := b.rot.rotateVec baseNormal
  let d := planeNormal.dot b.pos
  let t := planeNormal.dot a.pos - d
  if t < radius then
    { contacts := [{ ref := a.ent, alt := b.ent,
                     points := [makeVector4 (a.pos + radius • planeNormal) t,
                                zero4, zero4, zero4],
                     numPoints := 1, normal := planeNormal, lambdaN := 0 }],
      events := [] }
  else
    { contacts := [], events := [] }

/-- The two collision meshes built by the `HullHull` case. Both half-edge
meshes are read from `a_prim` as in the source (`hEdgeB` is
`a_prim->hull.halfEdgeMesh` at line 218 of physics.cpp), while each mesh's
vertices are transformed by its own entity's transform. -/
def hullHullMeshes (a b : EntityInfo) : CollisionMesh × CollisionMesh :=
  let hEdgeA := a.prim.hullMesh
  let hEdgeB := a.prim.hullMesh
  (buildCollisionMesh hEdgeA a a.pos, buildCollisionMesh hEdgeB b b.pos)

/-- The `HullHull` case of `runNarrowphase`; `doSAT` is the SAT test from the
geometry module (outside the provided sources), passed as a parameter. -/
def hullHullCase (doSAT : CollisionMesh → CollisionMesh → Manifold)
    (a b : EntityInfo) : NarrowphaseResult :=
  let meshes := hullHullMeshes a b
  let manifold := doSAT meshes.1 meshes.2
  if 0 < manifold.numContactPoints then
    { contacts := [{ ref := if manifold.aIsReference then a.ent else b.ent,
                     alt := if manifold.aIsReference then b.ent else a.ent,
                     points := [manifold.contactPoints.getD 0 zero4,
                                manifold.contactPoints.getD 1 zero4,
                                manifold.contactPoints.getD 2 zero4,
                                manifold.contactPoints.getD 3 zero4],
                     numPoints := manifold.numContactPoints,
                     normal := manifold.normal, lambdaN := 0 }],
      events := [] }
  else
    { contacts := [], events := [] }

/-- The `HullPlane` case of `runNarrowphase`; `doSATPlane` is the plane SAT
test, passed as a parameter. The plane entity is always the reference. -/
def hullPlaneCase (doSATPlane : GeometryPlane → CollisionMesh → Manifold)
    (a b : EntityInfo) : NarrowphaseResult :=
  let hEdgeA := a.prim.hullMesh
  let meshA := buildCollisionMesh hEdgeA a a.pos
  let baseNormal : Vec3 := ⟨0, 0, 1⟩
  let planeNormal := b.rot.rotateVec baseNormal
  let plane : GeometryPlane := ⟨b.pos, planeNormal⟩
  let manifold := doSATPlane plane meshA
  if 0 < manifold.numContactPoints then
    { contacts := [{ ref := b.ent,
                     alt := a.ent,
                     points := [manifold.contactPoints.getD 0 zero4,
                                manifold.contactPoints.getD 1 zero4,
                                manifold.contactPoints.getD 2 zero4,
                                manifold.contactPoints.getD 3 zero4],
                     numPoints := manifold.numContactPoints,
                     normal := manifold.normal, lambdaN := 0 }],
      events := [] }
  else
    { contacts := [], events := [] }

/-- `narrowphase::runNarrowphase`: canonicalize the pair by primitive rank
(swap when `raw_type_a > raw_type_b`), dispatch on the bitwise OR of the two
ranks, and run the matching primitive test. The `SphereHull` case (3) asserts
false in the source and the default case is unreachable; both produce
nothing. -/
def runNarrowphase (doSAT : CollisionMesh → CollisionMesh → Manifold)
    (doSATPlane : GeometryPlane → CollisionMesh → Manifold)
    (candA candB : EntityInfo) : NarrowphaseResult :=
  let ab := if candB.prim.rank < candA.prim.rank then (candB, candA)
            else (candA, candB)
  let a := ab.1
  let b := ab.2
  match a.prim.rank ||| b.prim.rank with
  | 1 => sphereSphereCase candA.ent candB.ent a b
  | 2 => hullHullCase doSAT a b
  | 3 => { contacts := [], events := [] }
  | 4 => { contacts := [], events := [] }
  | 5 => spherePlaneCase a b
  | 6 => hullPlaneCase doSATPlane a b
  | _ => { contacts := [], events := [] }

/-- The fields of the `SolverData` singleton that the constructor computes. -/
structure SolverDataModel where
  maxContacts : ℕ
  deltaT : ℝ
  h : ℝ
  g : Vec3
  gMagnitude : ℝ
  restitutionThreshold : ℝ

/-- The `SolverData` constructor: `h = delta_t / num_substeps`,
`gMagnitude = |gravity|`, `restitutionThreshold = 2 * gMagnitude * h`. -/
def mkSolverData (maxContactsPerStep : ℕ) (deltaT : ℝ) (numSubsteps : ℕ)
    (gravity : Vec3) : SolverDataModel :=
  let h := deltaT / (numSubsteps : ℝ)
  let gMagnitude := gravity.length
  { maxContacts := maxContactsPerStep, deltaT := deltaT, h := h, g := gravity,
    gMagnitude := gMagnitude, restitutionThreshold := 2 * gMagnitude * h }

/-- Bookkeeping state of `SolverData.addContacts`: the atomic counter and the
set of buffer indices written so far (to state overflow). -/
structure SolverBufferState where
  numContacts : ℕ
  writes : List ℕ

/-- `SolverData::addContacts` for a span of `k` contacts: fetch-add the
counter, record the assert predicate `contact_idx < maxContacts` evaluated on
the pre-add value, and write slots `contact_idx .. contact_idx + k - 1`.
The returned Bool is whether the assert passes. -/
def addContactsModel (maxContacts : ℕ) (st : SolverBufferState) (k : ℕ) :
    SolverBufferState × Bool :=
  let contactIdx := st.numContacts
  (⟨contactIdx + k, st.writes ++ (List.range k).map (fun i => contactIdx + i)⟩,
   decide (contactIdx < maxContacts))

/-- The `Velocity` component. -/
structure Velocity where
  linear : Vec3
  angular : Vec3

/-- The `SubstepPrevState` component. -/
structure SubstepPrevState where
  prevPosition : Vec3
  prevRotation : Quat

/-- The `SubstepStartState` component. -/
structure SubstepStartState where
  startPosition : Vec3
  startRotation : Quat

/-- The `SubstepVelocityState` component. -/
structure SubstepVelocityState where
  prevLinear : Vec3
  prevAngular : Vec3

/-- `RigidBodyMetadata` from the `ObjectManager`. -/
structure RigidBodyMetadata where
  invInertiaTensor : Vec3
  invMass : ℝ
  muS : ℝ
  muD : ℝ

/-- Everything `solver::substepRigidBodies` writes for one body. -/
structure SubstepResult where
  pos : Vec3
  rot : Quat
  vel : Velocity
  prevState : SubstepPrevState
  startState : SubstepStartState
  velState : SubstepVelocityState

/-- `solver::substepRigidBodies`: save prev state and prev velocities, apply
gravity to a local copy of the linear velocity when `inv_m > 0`, advance the
position, integrate the gyroscopic angular term (writing it back to
`vel.angular`), advance and renormalize the rotation, and record the start
state. Only the angular part of `Velocity` is written back. -/
def substepRigidBodies (h : ℝ) (g : Vec3) (invM : ℝ) (invI : Vec3)
    (pos : Vec3) (rot : Quat) (vel : Velocity) : SubstepResult :=
  let prevState : SubstepPrevState := ⟨pos, rot⟩
  let velState : SubstepVelocityState := ⟨vel.linear, vel.angular⟩
  let linearVelocity :=
    if 0 < invM then vel.linear + h • g else vel.linear
  let curPosition := pos + h • linearVelocity
  let bigI : Vec3 :=
    ⟨if invI.x = 0 then 0 else 1 / invI.x,
     if invI.y = 0 then 0 else 1 / invI.y,
     if invI.z = 0 then 0 else 1 / invI.z⟩
  let torqueExt : Vec3 := 0
  let iAngular := multDiag bigI vel.angular
  let angularVelocity :=
    vel.angular + h • multDiag invI (torqueExt - Vec3.cross vel.angular iAngular)
  let angularQuat := Quat.fromAngularVec ((0.5 * h) • angularVelocity)
  let curRotation := (rot + angularQuat * rot).normalize
  { pos := curPosition, rot := curRotation,
    vel := ⟨vel.linear, angularVelocity⟩,
    prevState := prevState,
    startState := ⟨curPosition, curRotation⟩,
    velState := velState }

/-- `solver::generalizedInverseMass`. -/
def generalizedInverseMass (rloc : Vec3) (invM : ℝ) (invI : Vec3) (n : Vec3) :
    ℝ :=
  let lxn := Vec3.cross rloc n
  invM + Vec3.dot (multDiag invI lxn) lxn

/-- The mutable (x1, x2, q1, q2) state threaded through the positional solve
of one contact. -/
structure PosSolveState where
  x1 : Vec3
  x2 : Vec3
  q1 : Quat
  q2 : Quat

/-- `solver::applyPositionalUpdate`: XPBD positional update along `n_world`
with local directions `n1`, `n2`, constraint value `c` and compliance
`alpha_tilde`. The lambda accumulator is updated first; if `lambda_check`
rejects the new value nothing else changes. Returns the new state and the new
lambda. -/
def applyPositionalUpdate (st : PosSolveState) (r1 r2 : Vec3)
    (invM1 invM2 : ℝ) (invI1 invI2 : Vec3)
    (nWorld n1 n2 : Vec3) (c alphaTilde lambda : ℝ)
    (lambdaCheck : ℝ → Bool) : PosSolveState × ℝ :=
  let w1 := generalizedInverseMass r1 invM1 invI1 n1
  let w2 := generalizedInverseMass r2 invM2 invI2 n2
  let deltaLambda := (-c - alphaTilde * lambda) / (w1 + w2 + alphaTilde)
  let lambda := lambda + deltaLambda
  if lambdaCheck lambda then (st, lambda)
  else
    let p := deltaLambda • nWorld
    let pLocal1 := deltaLambda • n1
    let pLocal2 := deltaLambda • n2
    let x1 := st.x1 + invM1 • p
    let x2 := st.x2 - invM2 • p
    let r1xp := Vec3.cross r1 pLocal1
    let r2xp := Vec3.cross r2 pLocal2
    let q1 := (st.q1 + Quat.fromAngularVec ((0.5 : ℝ) • multDiag invI1 r1xp) * st.q1).normalize
    let q2 := (st.q2 - Quat.fromAngularVec ((0.5 : ℝ) • multDiag invI2 r2xp) * st.q2).normalize
    (⟨x1, x2, q1, q2⟩, lambda)

/-- `solver::handleContactConstraint` for one contact point: skip separated
points (`d ≤ 0`), apply the rigid normal update, then the static-friction
tangential update clamped by the Coulomb predicate
`lambda >= lambda_n * mu_s` (with `lambda_n` already updated). Returns the
new state and the new `(lambda_n, lambda_t)`. -/
def handleContactConstraint (st : PosSolveState)
    (prev1 prev2 : SubstepPrevState)
    (invM1 invM2 : ℝ) (invI1 invI2 : Vec3) (muS1 muS2 : ℝ)
    (r1 r2 : Vec3) (nWorld : Vec3) (lambdaN lambdaT : ℝ) :
    PosSolveState × ℝ × ℝ :=
  let p1 := st.q1.rotateVec r1 + st.x1
  let p2 := st.q2.rotateVec r2 + st.x2
  let d := Vec3.dot (p1 - p2) nWorld
  if d ≤ 0 then (st, lambdaN, lambdaT)
  else
    let p1hat := prev1.prevRotation.rotateVec r1 + prev1.prevPosition
    let p2hat := prev2.prevRotation.rotateVec r2 + prev2.prevPosition
    let nLocal1 := st.q1.inv.rotateVec nWorld
    let nLocal2 := st.q2.inv.rotateVec nWorld
    let upd := applyPositionalUpdate st r1 r2 invM1 invM2 invI1 invI2
      nWorld nLocal1 nLocal2 d 0 lambdaN (fun _ => false)
    let st := upd.1
    let lambdaN := upd.2
    let deltaP := (p1 - p1hat) - (p2 - p2hat)
    let deltaPt := deltaP - Vec3.dot deltaP nWorld • nWorld
    let tangentialMagnitude := deltaPt.length
    if 0 < tangentialMagnitude then
      let tangentDir := Vec3.sdiv deltaPt tangentialMagnitude
      let tangentDirLocal1 := st.q1.inv.rotateVec tangentDir
      let tangentDirLocal2 := st.q2.inv.rotateVec tangentDir
      let muS := 0.5 * (muS1 + muS2)
      let lambdaThreshold := lambdaN * muS
      let upd2 := applyPositionalUpdate st r1 r2 invM1 invM2 invI1 invI2
        tangentDir tangentDirLocal1 tangentDirLocal2 tangentialMagnitude
        0 lambdaT (fun lambda => decide (lambdaThreshold ≤ lambda))
      (upd2.1, lambdaN, upd2.2)
    else
      (st, lambdaN, lambdaT)

/-- `solver::getLocalSpaceContacts`: recover the second contact point from
the depth and transform both into the start-state local frames. -/
def getLocalSpaceContacts (start1 start2 : SubstepStartState)
    (contact : Contact) (pointIdx : ℕ) : Vec3 × Vec3 :=
  let contact1 := (contact.points.getD pointIdx zero4).xyz
  let penetrationDepth := (contact.points.getD pointIdx zero4).w
  let contact2 := contact1 - penetrationDepth • contact.normal
  (start1.startRotation.inv.rotateVec (contact1 - start1.startPosition),
   start2.startRotation.inv.rotateVec (contact2 - start2.startPosition))

/-- One iteration of the point loop in `solver::handleContact`: points with
index `i ≥ numPoints` are skipped. -/
def handleContactStep (meta1 meta2 : RigidBodyMetadata)
    (prev1 prev2 : SubstepPrevState) (start1 start2 : SubstepStartState)
    (contact : Contact) (acc : PosSolveState × ℝ × ℝ) (i : ℕ) :
    PosSolveState × ℝ × ℝ :=
  if i < contact.numPoints then
    let rs := getLocalSpaceContacts start1 start2 contact i
    handleContactConstraint acc.1 prev1 prev2 meta1.invMass meta2.invMass
      meta1.invInertiaTensor meta2.invInertiaTensor meta1.muS meta2.muS
      rs.1 rs.2 contact.normal acc.2.1 acc.2.2
  else acc

/-- `solver::handleContact`: loop the four point slots, then write back the
positions, rotations and the final `lambda_n`. Returns the final
(x1, x2, q1, q2) and the contact's stored `lambdaN`. -/
def handleContact (meta1 meta2 : RigidBodyMetadata)
    (prev1 prev2 : SubstepPrevState) (start1 start2 : SubstepStartState)
    (contact : Contact) (x1 x2 : Vec3) (q1 q2 : Quat) :
    PosSolveState × ℝ :=
  let init : PosSolveState × ℝ × ℝ := (⟨x1, x2, q1, q2⟩, 0, 0)
  let final := (List.range 4).foldl
    (handleContactStep meta1 meta2 prev1 prev2 start1 start2 contact) init
  (final.1, final.2.1)

/-- `solver::setVelocities`: finite-difference linear velocity and the
angular velocity recovered from `Δq = rot * prevRotation⁻¹`, negated unless
`Δq.w > 0`. -/
def setVelocities (h : ℝ) (pos prevPos : Vec3) (rot prevRot : Quat) :
    Velocity :=
  let lin := Vec3.sdiv (pos - prevPos) h
  let deltaQ := rot * prevRot.inv
  let newAngular := (2 / h) • (⟨deltaQ.x, deltaQ.y, deltaQ.z⟩ : Vec3)
  ⟨lin, if 0 < deltaQ.w then newAngular else -newAngular⟩

/-- The four velocity accumulators threaded through the velocity solve of one
contact. -/
structure VelSolveState where
  v1 : Vec3
  v2 : Vec3
  omega1 : Vec3
  omega2 : Vec3

/-- `solver::applyVelocityUpdate`: impulse of the given magnitude along
`delta_v_world` (local directions `delta_v_l1`, `delta_v_l2`) scaled by the
generalized inverse masses. -/
def applyVelocityUpdate (st : VelSolveState) (r1 r2 : Vec3)
    (invM1 invM2 : ℝ) (invI1 invI2 : Vec3)
    (deltaVWorld deltaVL1 deltaVL2 : Vec3) (deltaVMagnitude : ℝ) :
    VelSolveState :=
  let w1 := generalizedInverseMass r1 invM1 invI1 deltaVL1
  let w2 := generalizedInverseMass r2 invM2 invI2 deltaVL2
  let m := deltaVMagnitude * (1 / (w1 + w2))
  ⟨st.v1 + (m * invM1) • deltaVWorld,
   st.v2 - (m * invM2) • deltaVWorld,
   st.omega1 + multDiag invI1 (Vec3.cross r1 (m • deltaVL1)),
   st.omega2 - multDiag invI2 (Vec3.cross r2 (m • deltaVL2))⟩

/-- The restitution coefficient of `updateVelocityFromContact`:
`e = 0.4`, reset to 0 when `|vn_bar| <= restitution_threshold`. -/
def restitutionCoefficient (vnBar restitutionThreshold : ℝ) : ℝ :=
  if |vnBar| ≤ restitutionThreshold then 0 else 0.4

/-- One iteration of the point loop in `solver::updateVelocityFromContact`:
dynamic friction (when the tangential speed and the friction magnitude are
both nonzero) followed by the restitution impulse along the contact normal. -/
def updateVelocityFromContactPoint (meta1 meta2 : RigidBodyMetadata)
    (q1 q2 : Quat) (start1 start2 : SubstepStartState)
    (prevVel1 prevVel2 : SubstepVelocityState) (contact : Contact)
    (restitutionThreshold dynamicFrictionMagnitude : ℝ)
    (st : VelSolveState) (i : ℕ) : VelSolveState :=
  let rs := getLocalSpaceContacts start1 start2 contact i
  let r1 := rs.1
  let r2 := rs.2
  let n := contact.normal
  let v := (st.v1 + Vec3.cross st.omega1 r1) - (st.v2 + Vec3.cross st.omega2 r2)
  let vn := Vec3.dot n v
  let vt := v - vn • n
  let vtLen := vt.length
  let st :=
    if vtLen ≠ 0 ∧ dynamicFrictionMagnitude ≠ 0 then
      let correctedMagnitude := -(min dynamicFrictionMagnitude vtLen)
      let deltaWorld := Vec3.sdiv vt vtLen
      let deltaLocal1 := q1.inv.rotateVec deltaWorld
      let deltaLocal2 := q2.inv.rotateVec deltaWorld
      applyVelocityUpdate st r1 r2 meta1.invMass meta2.invMass
        meta1.invInertiaTensor meta2.invInertiaTensor
        deltaWorld deltaLocal1 deltaLocal2 correctedMagnitude
    else st
  let vBar := (prevVel1.prevLinear + Vec3.cross prevVel1.prevAngular r1) -
              (prevVel2.prevLinear + Vec3.cross prevVel2.prevAngular r2)
  let vnBar := Vec3.dot n vBar
  let e := restitutionCoefficient vnBar restitutionThreshold
  let restitutionMagnitude := min (-e * vnBar) 0 - vn
  let nLocal1 := q1.inv.rotateVec n
  let nLocal2 := q2.inv.rotateVec n
  applyVelocityUpdate st r1 r2 meta1.invMass meta2.invMass
    meta1.invInertiaTensor meta2.invInertiaTensor
    n nLocal1 nLocal2 restitutionMagnitude

/-- `solver::updateVelocityFromContact`: the dynamic-friction magnitude
`mu_d * |lambda_n| / h` with averaged `mu_d`, then the point loop over the
four slots (skipping `i ≥ numPoints`). -/
def updateVelocityFromContact (meta1 meta2 : RigidBodyMetadata)
    (q1 q2 : Quat) (start1 start2 : SubstepStartState)
    (prevVel1 prevVel2 : SubstepVelocityState) (contact : Contact)
    (h restitutionThreshold : ℝ) (st : VelSolveState) : VelSolveState :=
  let muD := 0.5 * (meta1.muD + meta2.muD)
  let dynamicFrictionMagnitude := muD * |contact.lambdaN| / h
  (List.range 4).foldl
    (fun acc i =>
      if i < contact.numPoints then
        updateVelocityFromContactPoint meta1 meta2 q1 q2 start1 start2
          prevVel1 prevVel2 contact restitutionThreshold
          dynamicFrictionMagnitude acc i
      else acc)
    st

/-- C2: the claim says a single `addContacts` call of `k > 1` contacts
starting at index `maxContacts - 1` must not write past the buffer and that
the assert suffices to rule out overflow. Evaluating the embedded
`addContacts` with `maxContacts = 2`, one prior contact and a span of 2:
the assert predicate passes on both calls, yet slot 2 — one past the end of
the 2-slot buffer — is written and the counter ends at 3 > 2. -/
theorem c2_addContacts_assert_insufficient :
    (addContactsModel 2 ⟨0, []⟩ 1).2 = true ∧
    (addContactsModel 2 (addContactsModel 2 ⟨0, []⟩ 1).1 2).2 = true ∧
    2 ∈ (addContactsModel 2 (addContactsModel 2 ⟨0, []⟩ 1).1 2).1.writes ∧
    ¬ 2 < 2 ∧
    (addContactsModel 2 (addContactsModel 2 ⟨0, []⟩ 1).1 2).1.numContacts = 3 := by
  decide

/-- C1: evaluating the hull/hull narrowphase at a pair of hulls with
different half-edge meshes (A owns vertex (1,0,0), B owns vertex (0,1,0),
identity transforms). A probe SAT function reports hull B's world-space
vertex as the manifold normal: the narrowphase hands it (1,0,0) — a vertex
of A's mesh — although B's own transformed mesh is [(0,1,0)]. Hull B's
collision mesh is built from hull A's half-edge mesh. -/
theorem c1_hull_hull_uses_a_mesh_for_b :
    (runNarrowphase (fun _ meshB => ⟨[], 1, meshB.vertices.getD 0 0, true⟩)
        (fun _ _ => ⟨[], 0, 0, true⟩)
        ⟨0, .hull [⟨1, 0, 0⟩], 0, Quat.identity, ⟨1, 1, 1⟩⟩
        ⟨1, .hull [⟨0, 1, 0⟩], 0, Quat.identity, ⟨1, 1, 1⟩⟩).contacts.map
      Contact.normal = [⟨1, 0, 0⟩] ∧
    ((CollisionPrimitive.hull [⟨0, 1, 0⟩]).hullMesh.map
      (transformVertex ⟨1, .hull [⟨0, 1, 0⟩], 0, Quat.identity, ⟨1, 1, 1⟩⟩)
      = [⟨0, 1, 0⟩]) ∧
    ((⟨1, 0, 0⟩ : Vec3) ≠ ⟨0, 1, 0⟩) := by
  refine ⟨?_, ?_, ?_⟩
  · simp [runNarrowphase, hullHullCase, hullHullMeshes, buildCollisionMesh,
      transformVertex, CollisionPrimitive.hullMesh, CollisionPrimitive.rank]
    ext <;> simp
  · simp [transformVertex, CollisionPrimitive.hullMesh]
    ext <;> simp
  · intro hcon
    have := congrArg Vec3.x hcon
    simp at this

theorem runNarrowphase_sphere_sphere
    (ds : CollisionMesh → CollisionMesh → Manifold)
    (dp : GeometryPlane → CollisionMesh → Manifold)
    (ae be : ℕ) (rA rB : ℝ) (pa pb : Vec3) (qa qb : Quat) (sa sb : Vec3) :
    runNarrowphase ds dp ⟨ae, .sphere rA, pa, qa, sa⟩ ⟨be, .sphere rB, pb, qb, sb⟩ =
      sphereSphereCase ae be ⟨ae, .sphere rA, pa, qa, sa⟩
        ⟨be, .sphere rB, pb, qb, sb⟩ := by
  simp [runNarrowphase, CollisionPrimitive.rank]

theorem runNarrowphase_sphere_first_plane
    (ds : CollisionMesh → CollisionMesh → Manifold)
    (dp : GeometryPlane → CollisionMesh → Manifold)
    (ae be : ℕ) (rA : ℝ) (pa pb : Vec3) (qa qb : Quat) (sa sb : Vec3) :
    runNarrowphase ds dp ⟨ae, .sphere rA, pa, qa, sa⟩ ⟨be, .plane, pb, qb, sb⟩ =
      spherePlaneCase ⟨ae, .sphere rA, pa, qa, sa⟩ ⟨be, .plane, pb, qb, sb⟩ := by
  simp [runNarrowphase, CollisionPrimitive.rank]

theorem runNarrowphase_plane_first_sphere
    (ds : CollisionMesh → CollisionMesh → Manifold)
    (dp : GeometryPlane → CollisionMesh → Manifold)
    (ae be : ℕ) (rA : ℝ) (pa pb : Vec3) (qa qb : Quat) (sa sb : Vec3) :
    runNarrowphase ds dp ⟨be, .plane, pb, qb, sb⟩ ⟨ae, .sphere rA, pa, qa, sa⟩ =
      spherePlaneCase ⟨ae, .sphere rA, pa, qa, sa⟩ ⟨be, .plane, pb, qb, sb⟩ := by
  simp [runNarrowphase, CollisionPrimitive.rank]

/-- C4: for a sphere/plane candidate pair in either order, with plane normal
`n` = the plane's rotation applied to (0,0,1) and signed distance
`t = n·a_pos − n·b_pos`: a contact is appended iff `t < rA`, and that contact
has exactly one point at `a_pos + n*rA` with stored depth `t` and normal `n`,
the sphere as `ref` and the plane as `alt`. -/
theorem c4_sphere_plane_contact
    (ds : CollisionMesh → CollisionMesh → Manifold)
    (dp : GeometryPlane → CollisionMesh → Manifold)
    (sph pl first second : EntityInfo) (rA : ℝ) (n : Vec3) (t : ℝ)
    (hs : sph.prim = .sphere rA) (hp : pl.prim = .plane)
    (hn : n = pl.rot.rotateVec ⟨0, 0, 1⟩)
    (ht : t = Vec3.dot n sph.pos - Vec3.dot n pl.pos)
    (horder : (first = sph ∧ second = pl) ∨ (first = pl ∧ second = sph)) :
    ((runNarrowphase ds dp first second).contacts ≠ [] ↔ t < rA) ∧
    (runNarrowphase ds dp first second).contacts =
      (if t < rA then
        [{ ref := sph.ent, alt := pl.ent,
           points := [makeVector4 (sph.pos + rA • n) t, zero4, zero4, zero4],
           numPoints := 1, normal := n, lambdaN := 0 }]
       else []) := by
  obtain ⟨ae, ap, apos, arot, ascl⟩ := sph
  obtain ⟨be, bp, bpos, brot, bscl⟩ := pl
  simp only at hs hp
  subst hs hp
  have hrun : runNarrowphase ds dp first second =
      spherePlaneCase ⟨ae, .sphere rA, apos, arot, ascl⟩
        ⟨be, .plane, bpos, brot, bscl⟩ := by
    rcases horder with ⟨h1, h2⟩ | ⟨h1, h2⟩ <;> subst h1 <;> subst h2
    · exact runNarrowphase_sphere_first_plane ds dp ae be rA apos bpos
        arot brot ascl bscl
    · exact runNarrowphase_plane_first_sphere ds dp ae be rA apos bpos
        arot brot ascl bscl
  rw [hrun]
  unfold spherePlaneCase
  simp only [CollisionPrimitive.sphereRadius] at *
  subst hn ht
  split_ifs with hcond
  · simp [hcond]
  · simp [hcond]

theorem Vec3.dot_sdiv_length_self (v : Vec3) (h : 0 < v.length) :
    Vec3.dot (Vec3.sdiv v v.length) (Vec3.sdiv v v.length) = 1 := by
  have hd2 : v.length * v.length = Vec3.dot v v :=
    Real.mul_self_sqrt (Vec3.dot_self_nonneg v)
  have hne : v.length ≠ 0 := ne_of_gt h
  unfold Vec3.dot Vec3.sdiv at *
  field_simp
  nlinarith [hd2]

/-- C5: for a sphere/sphere candidate pair with centers `A.pos`, `B.pos` and
radii `rA`, `rB`: a contact is appended iff `0 < |b-a| < rA + rB`, and that
contact has one point at the midpoint `a + (b-a)/2` with stored depth
`|b-a|/2` and normal `(b-a)/|b-a|`; otherwise the pair appends nothing. -/
theorem c5_sphere_sphere_contact
    (ds : CollisionMesh → CollisionMesh → Manifold)
    (dp : GeometryPlane → CollisionMesh → Manifold)
    (A B : EntityInfo) (rA rB : ℝ) (toB : Vec3) (dist : ℝ)
    (hA : A.prim = .sphere rA) (hB : B.prim = .sphere rB)
    (htoB : toB = B.pos - A.pos) (hdist : dist = toB.length) :
    ((runNarrowphase ds dp A B).contacts ≠ [] ↔ (0 < dist ∧ dist < rA + rB)) ∧
    (∀ c ∈ (runNarrowphase ds dp A B).contacts,
      c = { ref := A.ent, alt := B.ent,
            points := [makeVector4 (A.pos + Vec3.sdiv toB 2) (dist / 2),
                       zero4, zero4, zero4],
            numPoints := 1, normal := Vec3.sdiv toB dist, lambdaN := 0 }) ∧
    (¬(0 < dist ∧ dist < rA + rB) → (runNarrowphase ds dp A B).contacts = []) := by
  obtain ⟨ae, ap, apos, arot, ascl⟩ := A
  obtain ⟨be, bp, bpos, brot, bscl⟩ := B
  simp only at hA hB
  subst hA hB
  rw [runNarrowphase_sphere_sphere]
  unfold sphereSphereCase
  simp only [CollisionPrimitive.sphereRadius] at *
  subst htoB hdist
  split_ifs with hcond
  · simp [hcond]
  · simp [hcond]

/-- C3 counterexample: a sphere of radius 1 centered at (0,0,-1) against a
plane through the origin with identity rotation. The sphere/plane branch
appends a contact (t = -1 < 1 = radius) whose stored depth
`points[0].w = t = -1` is negative, refuting `points[i].w ≥ 0` at insertion. -/
theorem c3_sphere_plane_negative_depth_cex :
    ((spherePlaneCase
        ⟨0, .sphere 1, ⟨0, 0, -1⟩, Quat.identity, ⟨1, 1, 1⟩⟩
        ⟨1, .plane, ⟨0, 0, 0⟩, Quat.identity, ⟨1, 1, 1⟩⟩).contacts.map
      (fun c => (c.points.getD 0 zero4).w) = [-1]) ∧ ((-1 : ℝ) < 0) := by
  constructor
  · unfold spherePlaneCase
    dsimp only
    split_ifs with h
    · simp
      norm_num [Vec3.dot]
    · exfalso
      apply h
      norm_num [Vec3.dot, CollisionPrimitive.sphereRadius]
  · norm_num

/-- C3 amended: every contact appended by the sphere/sphere branch has
`numPoints = 1`, a strictly positive stored depth and an exactly unit normal;
the sphere/plane branch appends contacts with `numPoints = 1`, stored depth
equal to the signed distance `t` and normal `n`, and its depth is nonnegative
exactly when `t ≥ 0` — the `w ≥ 0` insertion invariant therefore holds for
sphere/plane contacts only under `0 ≤ t` (it fails for `t < 0`, see the
counterexample). -/
theorem c3_amended_contact_insertion
    (origA origB : ℕ) (a b : EntityInfo) (n : Vec3) (t : ℝ)
    (hn : n = b.rot.rotateVec ⟨0, 0, 1⟩)
    (ht : t = Vec3.dot n a.pos - Vec3.dot n b.pos) :
    (∀ c ∈ (sphereSphereCase origA origB a b).contacts,
       c.numPoints = 1 ∧ 0 < (c.points.getD 0 zero4).w ∧
       Vec3.dot c.normal c.normal = 1) ∧
    (∀ c ∈ (spherePlaneCase a b).contacts,
       c.numPoints = 1 ∧ (c.points.getD 0 zero4).w = t ∧ c.normal = n ∧
       (0 ≤ t → 0 ≤ (c.points.getD 0 zero4).w)) := by
  constructor
  · unfold sphereSphereCase
    dsimp only
    split_ifs with hcond
    · intro c hc
      simp only [List.mem_singleton] at hc
      subst hc
      obtain ⟨h0, _⟩ := hcond
      exact ⟨rfl, by simpa using half_pos h0, Vec3.dot_sdiv_length_self _ h0⟩
    · simp
  · unfold spherePlaneCase
    dsimp only
    split_ifs with hcond
    · intro c hc
      simp only [List.mem_singleton] at hc
      subst hc hn ht
      refine ⟨rfl, by simp, by simp, ?_⟩
      intro h0t
      simpa using h0t
    · simp

/-- A sphere entity used by concrete witnesses. -/
def sphWitness : EntityInfo := ⟨0, .sphere 1, ⟨0, 0, 0⟩, Quat.identity, ⟨1, 1, 1⟩⟩

/-- A plane entity used by concrete witnesses. -/
def plWitness : EntityInfo := ⟨1, .plane, ⟨0, 0, 0⟩, Quat.identity, ⟨1, 1, 1⟩⟩

/-- A trivial SAT stand-in for witnesses whose pairs never reach the hull
branches. -/
def trivialSAT : CollisionMesh → CollisionMesh → Manifold := fun _ _ => ⟨[], 0, 0, true⟩

/-- A trivial plane-SAT stand-in for witnesses whose pairs never reach the
hull branches. -/
def trivialSATPlane : GeometryPlane → CollisionMesh → Manifold := fun _ _ => ⟨[], 0, 0, true⟩

/-- Witness for C4: a unit sphere at the origin against the z = 0 plane
(t = 0 < 1), via the full narrowphase dispatch. -/
theorem c4_sphere_plane_contact_witness :
    (sphWitness.prim = CollisionPrimitive.sphere 1) ∧
    (plWitness.prim = CollisionPrimitive.plane) ∧
    ((⟨0, 0, 1⟩ : Vec3) = plWitness.rot.rotateVec ⟨0, 0, 1⟩) ∧
    ((0 : ℝ) = Vec3.dot ⟨0, 0, 1⟩ sphWitness.pos - Vec3.dot ⟨0, 0, 1⟩ plWitness.pos) ∧
    ((sphWitness = sphWitness ∧ plWitness = plWitness) ∨
     (sphWitness = plWitness ∧ plWitness = sphWitness)) ∧
    (((runNarrowphase trivialSAT trivialSATPlane sphWitness plWitness).contacts ≠ []
        ↔ (0 : ℝ) < 1) ∧
     (runNarrowphase trivialSAT trivialSATPlane sphWitness plWitness).contacts =
       (if (0 : ℝ) < 1 then
         [{ ref := sphWitness.ent, alt := plWitness.ent,
            points := [makeVector4 (sphWitness.pos + (1 : ℝ) • (⟨0, 0, 1⟩ : Vec3)) 0,
                       zero4, zero4, zero4],
            numPoints := 1, normal := ⟨0, 0, 1⟩, lambdaN := 0 }]
        else [])) :=
  ⟨rfl, rfl, by simp [plWitness], by norm_num [Vec3.dot, sphWitness, plWitness],
   Or.inl ⟨rfl, rfl⟩,
   c4_sphere_plane_contact trivialSAT trivialSATPlane sphWitness plWitness
     sphWitness plWitness 1 ⟨0, 0, 1⟩ 0 rfl rfl (by simp [plWitness])
     (by norm_num [Vec3.dot, sphWitness, plWitness]) (Or.inl ⟨rfl, rfl⟩)⟩

/-- Two overlapping spheres of radius 1.5 at distance 2 used by witnesses. -/
def sphAWitness : EntityInfo := ⟨0, .sphere 1.5, ⟨0, 0, 0⟩, Quat.identity, ⟨1, 1, 1⟩⟩

/-- Second sphere of the witness pair. -/
def sphBWitness : EntityInfo := ⟨1, .sphere 1.5, ⟨2, 0, 0⟩, Quat.identity, ⟨1, 1, 1⟩⟩

theorem length_two_zero_zero : Vec3.length ⟨2, 0, 0⟩ = 2 := by
  rw [Vec3.length]
  have h4 : Vec3.dot ⟨2, 0, 0⟩ ⟨2, 0, 0⟩ = (2 : ℝ) ^ 2 := by norm_num [Vec3.dot]
  rw [h4, Real.sqrt_sq (by norm_num : (0 : ℝ) ≤ 2)]

/-- Witness for C5: two radius-1.5 spheres with centers 2 apart
(0 < 2 < 3), via the full narrowphase dispatch. -/
theorem c5_sphere_sphere_contact_witness :
    (sphAWitness.prim = CollisionPrimitive.sphere 1.5) ∧
    (sphBWitness.prim = CollisionPrimitive.sphere 1.5) ∧
    ((⟨2, 0, 0⟩ : Vec3) = sphBWitness.pos - sphAWitness.pos) ∧
    ((2 : ℝ) = Vec3.length ⟨2, 0, 0⟩) ∧
    (((runNarrowphase trivialSAT trivialSATPlane sphAWitness sphBWitness).contacts ≠ []
        ↔ ((0 : ℝ) < 2 ∧ (2 : ℝ) < 1.5 + 1.5)) ∧
     (∀ c ∈ (runNarrowphase trivialSAT trivialSATPlane sphAWitness sphBWitness).contacts,
        c = { ref := sphAWitness.ent, alt := sphBWitness.ent,
              points := [makeVector4 (sphAWitness.pos + Vec3.sdiv ⟨2, 0, 0⟩ 2) (2 / 2),
                         zero4, zero4, zero4],
              numPoints := 1, normal := Vec3.sdiv ⟨2, 0, 0⟩ 2, lambdaN := 0 }) ∧
     (¬((0 : ℝ) < 2 ∧ (2 : ℝ) < 1.5 + 1.5) →
        (runNarrowphase trivialSAT trivialSATPlane sphAWitness sphBWitness).contacts = [])) :=
  ⟨rfl, rfl, by ext <;> norm_num [sphAWitness, sphBWitness],
   length_two_zero_zero.symm,
   c5_sphere_sphere_contact trivialSAT trivialSATPlane sphAWitness sphBWitness
     1.5 1.5 ⟨2, 0, 0⟩ 2 rfl rfl (by ext <;> norm_num [sphAWitness, sphBWitness])
     length_two_zero_zero.symm⟩

/-- Witness for C3: the two-sphere pair above exercises the sphere/sphere
conjunct, and a sphere at height 1/2 above the z = 0 plane (t = 1/2 ≥ 0)
exercises the sphere/plane conjunct. -/
theorem c3_amended_contact_insertion_witness :
    ((⟨0, 0, 1⟩ : Vec3) = plWitness.rot.rotateVec ⟨0, 0, 1⟩) ∧
    ((0 : ℝ) = Vec3.dot ⟨0, 0, 1⟩ sphWitness.pos - Vec3.dot ⟨0, 0, 1⟩ plWitness.pos) ∧
    ((∀ c ∈ (sphereSphereCase 0 1 sphWitness plWitness).contacts,
       c.numPoints = 1 ∧ 0 < (c.points.getD 0 zero4).w ∧
       Vec3.dot c.normal c.normal = 1) ∧
     (∀ c ∈ (spherePlaneCase sphWitness plWitness).contacts,
       c.numPoints = 1 ∧ (c.points.getD 0 zero4).w = (0 : ℝ) ∧
       c.normal = (⟨0, 0, 1⟩ : Vec3) ∧
       ((0 : ℝ) ≤ 0 → 0 ≤ (c.points.getD 0 zero4).w))) :=
  ⟨by simp [plWitness], by norm_num [Vec3.dot, sphWitness, plWitness],
   c3_amended_contact_insertion 0 1 sphWitness plWitness ⟨0, 0, 1⟩ 0
     (by simp [plWitness]) (by norm_num [Vec3.dot, sphWitness, plWitness])⟩

theorem spherePlaneCase_events (a b : EntityInfo) :
    (spherePlaneCase a b).events = [] := by
  unfold spherePlaneCase; dsimp only; split_ifs <;> rfl

theorem hullHullCase_events (ds : CollisionMesh → CollisionMesh → Manifold)
    (a b : EntityInfo) : (hullHullCase ds a b).events = [] := by
  unfold hullHullCase; dsimp only; split_ifs <;> rfl

theorem hullPlaneCase_events (dp : GeometryPlane → CollisionMesh → Manifold)
    (a b : EntityInfo) : (hullPlaneCase dp a b).events = [] := by
  unfold hullPlaneCase; dsimp only; split_ifs <;> rfl

/-- C7 counterexample: a unit sphere at the origin against the z = 0 plane
(t = 0 < 1): the narrowphase appends a contact for the pair but creates no
CollisionEvent — only the sphere/sphere branch creates events. -/
theorem c7_contact_without_event_cex :
    (runNarrowphase trivialSAT trivialSATPlane sphWitness plWitness).contacts ≠ [] ∧
    (runNarrowphase trivialSAT trivialSATPlane sphWitness plWitness).events = [] := by
  have h : runNarrowphase trivialSAT trivialSATPlane sphWitness plWitness =
      spherePlaneCase sphWitness plWitness := by
    simp [runNarrowphase, sphWitness, plWitness, CollisionPrimitive.rank]
  rw [h]
  unfold spherePlaneCase
  dsimp only
  split_ifs with hc
  · exact ⟨by simp, rfl⟩
  · exfalso
    apply hc
    norm_num [Vec3.dot, sphWitness, plWitness, CollisionPrimitive.sphereRadius]

/-- C7 amended: a CollisionEvent is created only by the sphere/sphere branch.
If the narrowphase creates any event for a pair then both primitives are
spheres and a contact was appended; and for a sphere/sphere pair an event is
created iff a contact is appended. All other branches append contacts without
creating events. -/
theorem c7_amended_collision_events
    (ds : CollisionMesh → CollisionMesh → Manifold)
    (dp : GeometryPlane → CollisionMesh → Manifold) (A B : EntityInfo) :
    ((runNarrowphase ds dp A B).events ≠ [] →
       (∃ rA rB, A.prim = .sphere rA ∧ B.prim = .sphere rB) ∧
       (runNarrowphase ds dp A B).contacts ≠ []) ∧
    ((∃ rA rB, A.prim = .sphere rA ∧ B.prim = .sphere rB) →
       ((runNarrowphase ds dp A B).events ≠ [] ↔
        (runNarrowphase ds dp A B).contacts ≠ [])) := by
  obtain ⟨ae, ap, apos, arot, ascl⟩ := A
  obtain ⟨be, bp, bpos, brot, bscl⟩ := B
  cases ap with
  | sphere rA =>
    cases bp with
    | sphere rB =>
      rw [runNarrowphase_sphere_sphere ds dp ae be rA rB apos bpos arot brot
        ascl bscl]
      unfold sphereSphereCase
      dsimp only
      split_ifs with hc
      · exact ⟨fun _ => ⟨⟨rA, rB, rfl, rfl⟩, by simp⟩, fun _ => by simp⟩
      · exact ⟨fun hne => absurd rfl hne, fun _ => by simp⟩
    | hull m => simp [runNarrowphase, CollisionPrimitive.rank]
    | plane =>
      simp [runNarrowphase, CollisionPrimitive.rank, spherePlaneCase_events]
  | hull m =>
    cases bp with
    | sphere rB => simp [runNarrowphase, CollisionPrimitive.rank]
    | hull m2 =>
      simp [runNarrowphase, CollisionPrimitive.rank, hullHullCase_events]
    | plane =>
      simp [runNarrowphase, CollisionPrimitive.rank, hullPlaneCase_events]
  | plane =>
    cases bp with
    | sphere rB =>
      simp [runNarrowphase, CollisionPrimitive.rank, spherePlaneCase_events]
    | hull m2 =>
      simp [runNarrowphase, CollisionPrimitive.rank, hullPlaneCase_events]
    | plane => simp [runNarrowphase, CollisionPrimitive.rank]

/-- Witness for C7 amended at the concrete overlapping sphere/sphere pair. -/
theorem c7_amended_collision_events_witness :
    (∃ rA rB, sphAWitness.prim = CollisionPrimitive.sphere rA ∧
              sphBWitness.prim = CollisionPrimitive.sphere rB) ∧
    ((runNarrowphase trivialSAT trivialSATPlane sphAWitness sphBWitness).events ≠ [] ↔
     (runNarrowphase trivialSAT trivialSATPlane sphAWitness sphBWitness).contacts ≠ []) :=
  ⟨⟨1.5, 1.5, rfl, rfl⟩,
   (c7_amended_collision_events trivialSAT trivialSATPlane sphAWitness
      sphBWitness).2 ⟨1.5, 1.5, rfl, rfl⟩⟩

/-- C8 counterexample: with `rot` a 180° turn about x and `prevRotation` the
identity, `Δq = rot * prevRotation⁻¹` has `Δq.w = 0`, which is not `< 0`; the
claim therefore predicts the un-negated `ω = (2/h)·Δq.xyz = (2,0,0)` at
`h = 1`, but `setVelocities` (which negates whenever `Δq.w > 0` fails, i.e.
whenever `Δq.w ≤ 0`) returns `(-2,0,0)`. -/
theorem c8_negate_at_zero_w_cex :
    ¬ ((⟨0, 1, 0, 0⟩ : Quat) * Quat.identity.inv).w < 0 ∧
    (setVelocities 1 ⟨0, 0, 0⟩ ⟨0, 0, 0⟩ ⟨0, 1, 0, 0⟩ Quat.identity).angular =
      ⟨-2, 0, 0⟩ ∧
    (setVelocities 1 ⟨0, 0, 0⟩ ⟨0, 0, 0⟩ ⟨0, 1, 0, 0⟩ Quat.identity).angular ≠
      (2 / 1 : ℝ) •
        (⟨((⟨0, 1, 0, 0⟩ : Quat) * Quat.identity.inv).x,
          ((⟨0, 1, 0, 0⟩ : Quat) * Quat.identity.inv).y,
          ((⟨0, 1, 0, 0⟩ : Quat) * Quat.identity.inv).z⟩ : Vec3) := by
  have hdq : (⟨0, 1, 0, 0⟩ : Quat) * Quat.identity.inv = ⟨0, 1, 0, 0⟩ := by
    ext <;> simp [Quat.identity, Quat.inv, Quat.conj]
  refine ⟨by rw [hdq]; norm_num, ?_, ?_⟩
  · unfold setVelocities
    rw [hdq]
    dsimp only
    rw [if_neg (by norm_num)]
    ext <;> norm_num
  · unfold setVelocities
    rw [hdq]
    dsimp only
    rw [if_neg (by norm_num)]
    intro hcon
    have := congrArg Vec3.x hcon
    norm_num at this

/-- C8 amended: `setVelocities` sets the linear velocity to
`(pos − prevPosition) / h` and the angular velocity to `(2/h)·Δq.xyz` with
`Δq = rot * prevRotation⁻¹`, negating the result exactly when `Δq.w ≤ 0`
(the source negates unless `Δq.w > 0`, so the `Δq.w = 0` boundary is also
negated). -/
theorem c8_amended_set_velocities (h : ℝ) (pos prevPos : Vec3)
    (rot prevRot : Quat) (deltaQ : Quat) (newAngular : Vec3)
    (hdq : deltaQ = rot * prevRot.inv)
    (hna : newAngular = (2 / h) • (⟨deltaQ.x, deltaQ.y, deltaQ.z⟩ : Vec3)) :
    ((setVelocities h pos prevPos rot prevRot).linear =
      Vec3.sdiv (pos - prevPos) h) ∧
    (deltaQ.w ≤ 0 →
      (setVelocities h pos prevPos rot prevRot).angular = -newAngular) ∧
    (0 < deltaQ.w →
      (setVelocities h pos prevPos rot prevRot).angular = newAngular) := by
  subst hdq hna
  unfold setVelocities
  dsimp only
  refine ⟨rfl, ?_, ?_⟩
  · intro hle
    rw [if_neg (not_lt.mpr hle)]
  · intro hgt
    rw [if_pos hgt]

/-- Witness for C8 amended: identity rotations (`Δq.w = 1 > 0`) at `h = 1`. -/
theorem c8_amended_set_velocities_witness :
    ((Quat.identity : Quat) = Quat.identity * Quat.identity.inv) ∧
    ((⟨0, 0, 0⟩ : Vec3) =
      (2 / 1 : ℝ) • (⟨(Quat.identity : Quat).x, (Quat.identity : Quat).y,
        (Quat.identity : Quat).z⟩ : Vec3)) ∧
    (0 < (Quat.identity : Quat).w) ∧
    ((setVelocities 1 ⟨1, 2, 3⟩ ⟨0, 0, 0⟩ Quat.identity Quat.identity).angular =
      ⟨0, 0, 0⟩) :=
  ⟨by ext <;> simp [Quat.identity, Quat.inv, Quat.conj],
   by ext <;> simp [Quat.identity],
   by simp [Quat.identity],
   (c8_amended_set_velocities 1 ⟨1, 2, 3⟩ ⟨0, 0, 0⟩ Quat.identity Quat.identity
      Quat.identity ⟨0, 0, 0⟩
      (by ext <;> simp [Quat.identity, Quat.inv, Quat.conj])
      (by ext <;> simp [Quat.identity])).2.2 (by simp [Quat.identity])⟩

/-- C10: `substepRigidBodies` leaves `Velocity.linear` unchanged for every
body (gravity only enters a local copy used to advance the position), writes
the gyroscopic update `ω + h · invI ⊙ ((−ω) × (I ⊙ ω))` to `Velocity.angular`
unconditionally (also when invMass = 0), advances the position by
`h · (v + [invMass > 0] h·g)`, and the gravity contribution only reaches the
stored linear velocity through the later `setVelocities` finite difference. -/
theorem c10_substep_velocity_effect (h : ℝ) (g : Vec3) (invM : ℝ)
    (invI : Vec3) (pos : Vec3) (rot : Quat) (vel : Velocity) (bigI : Vec3)
    (hI : bigI = ⟨if invI.x = 0 then 0 else 1 / invI.x,
                  if invI.y = 0 then 0 else 1 / invI.y,
                  if invI.z = 0 then 0 else 1 / invI.z⟩) :
    ((substepRigidBodies h g invM invI pos rot vel).vel.linear = vel.linear) ∧
    ((substepRigidBodies h g invM invI pos rot vel).vel.angular =
      vel.angular + h • multDiag invI
        (Vec3.cross (-vel.angular) (multDiag bigI vel.angular))) ∧
    ((substepRigidBodies h g invM invI pos rot vel).pos =
      pos + h • (vel.linear + (if 0 < invM then h • g else 0))) ∧
    (h ≠ 0 →
      (setVelocities h (substepRigidBodies h g invM invI pos rot vel).pos
        (substepRigidBodies h g invM invI pos rot vel).prevState.prevPosition
        (substepRigidBodies h g invM invI pos rot vel).rot
        (substepRigidBodies h g invM invI pos rot vel).prevState.prevRotation).linear =
      vel.linear + (if 0 < invM then h • g else 0)) := by
  subst hI
  unfold substepRigidBodies
  dsimp only
  refine ⟨rfl, ?_, ?_, ?_⟩
  · have hcross : ∀ a b : Vec3, Vec3.cross (-a) b = (0 : Vec3) - Vec3.cross a b := by
      intro a b
      ext <;> simp [Vec3.cross] <;> ring
    rw [hcross]
  · split_ifs with hm
    · ext <;> simp
    · ext <;> simp
  · intro hne
    unfold setVelocities
    dsimp only
    split_ifs with hm <;> ext <;> simp [Vec3.sdiv] <;> field_simp

/-- Witness for C10 at `h = 1`, `invM = 1`, `invI = (1,1,1)`,
`g = (0,0,-10)`. -/
theorem c10_substep_velocity_effect_witness :
    ((⟨1, 1, 1⟩ : Vec3) =
      ⟨if (1 : ℝ) = 0 then 0 else 1 / 1,
       if (1 : ℝ) = 0 then 0 else 1 / 1,
       if (1 : ℝ) = 0 then 0 else 1 / 1⟩) ∧
    ((1 : ℝ) ≠ 0) ∧
    ((setVelocities 1
        (substepRigidBodies 1 ⟨0, 0, -10⟩ 1 ⟨1, 1, 1⟩ ⟨0, 0, 0⟩ Quat.identity
          ⟨⟨1, 0, 0⟩, ⟨0, 0, 0⟩⟩).pos
        (substepRigidBodies 1 ⟨0, 0, -10⟩ 1 ⟨1, 1, 1⟩ ⟨0, 0, 0⟩ Quat.identity
          ⟨⟨1, 0, 0⟩, ⟨0, 0, 0⟩⟩).prevState.prevPosition
        (substepRigidBodies 1 ⟨0, 0, -10⟩ 1 ⟨1, 1, 1⟩ ⟨0, 0, 0⟩ Quat.identity
          ⟨⟨1, 0, 0⟩, ⟨0, 0, 0⟩⟩).rot
        (substepRigidBodies 1 ⟨0, 0, -10⟩ 1 ⟨1, 1, 1⟩ ⟨0, 0, 0⟩ Quat.identity
          ⟨⟨1, 0, 0⟩, ⟨0, 0, 0⟩⟩).prevState.prevRotation).linear =
      (⟨⟨1, 0, 0⟩, ⟨0, 0, 0⟩⟩ : Velocity).linear +
        (if (0 : ℝ) < 1 then (1 : ℝ) • (⟨0, 0, -10⟩ : Vec3) else 0)) :=
  ⟨by norm_num, by norm_num,
   (c10_substep_velocity_effect 1 ⟨0, 0, -10⟩ 1 ⟨1, 1, 1⟩ ⟨0, 0, 0⟩
      Quat.identity ⟨⟨1, 0, 0⟩, ⟨0, 0, 0⟩⟩ ⟨1, 1, 1⟩
      (by norm_num)).2.2.2 (by norm_num)⟩

@[simp] theorem Quat.rotateVec_zero (q : Quat) : q.rotateVec 0 = 0 := by
  ext <;> simp [Quat.rotateVec, Quat.conj]

/-- C9: the restitution coefficient equals 0.4 exactly when
`|v̄n| > restitutionThreshold` and 0 otherwise; the per-point velocity update
ends by applying a normal impulse of magnitude `min(−e·v̄n, 0) − vn` along the
contact normal (with `vn`, `v̄n` the current and pre-substep normal relative
velocities at the point); and `SolverData` fixes `h = deltaT / numSubsteps`
and `restitutionThreshold = 2·|g|·h` at construction. -/
theorem c9_restitution (meta1 meta2 : RigidBodyMetadata) (q1 q2 : Quat)
    (start1 start2 : SubstepStartState)
    (prevVel1 prevVel2 : SubstepVelocityState) (contact : Contact)
    (thr dfm : ℝ) (st : VelSolveState) (i : ℕ) (r1 r2 : Vec3) (vn vnBar : ℝ)
    (hr : (r1, r2) = getLocalSpaceContacts start1 start2 contact i)
    (hvn : vn = Vec3.dot contact.normal
      ((st.v1 + Vec3.cross st.omega1 r1) - (st.v2 + Vec3.cross st.omega2 r2)))
    (hvnBar : vnBar = Vec3.dot contact.normal
      ((prevVel1.prevLinear + Vec3.cross prevVel1.prevAngular r1) -
       (prevVel2.prevLinear + Vec3.cross prevVel2.prevAngular r2)))
    (mc : ℕ) (dt : ℝ) (ns : ℕ) (grav : Vec3) :
    (restitutionCoefficient vnBar thr =
      if thr < |vnBar| then 0.4 else 0) ∧
    (∃ stMid : VelSolveState,
      updateVelocityFromContactPoint meta1 meta2 q1 q2 start1 start2
          prevVel1 prevVel2 contact thr dfm st i =
        applyVelocityUpdate stMid r1 r2 meta1.invMass meta2.invMass
          meta1.invInertiaTensor meta2.invInertiaTensor
          contact.normal (q1.inv.rotateVec contact.normal)
          (q2.inv.rotateVec contact.normal)
          (min (-(restitutionCoefficient vnBar thr) * vnBar) 0 - vn)) ∧
    ((mkSolverData mc dt ns grav).h = dt / (ns : ℝ)) ∧
    ((mkSolverData mc dt ns grav).restitutionThreshold =
      2 * grav.length * (dt / (ns : ℝ))) := by
  have hr1 : r1 = (getLocalSpaceContacts start1 start2 contact i).1 := by
    rw [← hr]
  have hr2 : r2 = (getLocalSpaceContacts start1 start2 contact i).2 := by
    rw [← hr]
  refine ⟨?_, ?_, rfl, rfl⟩
  · unfold restitutionCoefficient
    split_ifs with h1 h2 h3 <;> first | rfl | linarith [abs_nonneg vnBar]
  · subst hvn hvnBar
    subst hr1
    subst hr2
    unfold updateVelocityFromContactPoint
    dsimp only
    exact ⟨_, rfl⟩

/-- Witness for C9 at a concrete contact point: a single contact at the
origin with normal (0,0,1), identity orientations and zero velocities. -/
theorem c9_restitution_witness :
    (((⟨0, 0, 0⟩ : Vec3), (⟨0, 0, 0⟩ : Vec3)) =
      getLocalSpaceContacts ⟨⟨0, 0, 0⟩, Quat.identity⟩ ⟨⟨0, 0, 0⟩, Quat.identity⟩
        ⟨0, 1, [makeVector4 ⟨0, 0, 0⟩ 0], 1, ⟨0, 0, 1⟩, 0⟩ 0) ∧
    ((0 : ℝ) = Vec3.dot (⟨0, 0, 1⟩ : Vec3)
      (((⟨⟨0, 0, 0⟩, ⟨0, 0, 0⟩, ⟨0, 0, 0⟩, ⟨0, 0, 0⟩⟩ : VelSolveState).v1 +
          Vec3.cross (⟨⟨0, 0, 0⟩, ⟨0, 0, 0⟩, ⟨0, 0, 0⟩, ⟨0, 0, 0⟩⟩ : VelSolveState).omega1 ⟨0, 0, 0⟩) -
        ((⟨⟨0, 0, 0⟩, ⟨0, 0, 0⟩, ⟨0, 0, 0⟩, ⟨0, 0, 0⟩⟩ : VelSolveState).v2 +
          Vec3.cross (⟨⟨0, 0, 0⟩, ⟨0, 0, 0⟩, ⟨0, 0, 0⟩, ⟨0, 0, 0⟩⟩ : VelSolveState).omega2 ⟨0, 0, 0⟩))) ∧
    ((0 : ℝ) = Vec3.dot (⟨0, 0, 1⟩ : Vec3)
      (((⟨⟨0, 0, 0⟩, ⟨0, 0, 0⟩⟩ : SubstepVelocityState).prevLinear +
          Vec3.cross (⟨⟨0, 0, 0⟩, ⟨0, 0, 0⟩⟩ : SubstepVelocityState).prevAngular ⟨0, 0, 0⟩) -
        ((⟨⟨0, 0, 0⟩, ⟨0, 0, 0⟩⟩ : SubstepVelocityState).prevLinear +
          Vec3.cross (⟨⟨0, 0, 0⟩, ⟨0, 0, 0⟩⟩ : SubstepVelocityState).prevAngular ⟨0, 0, 0⟩))) ∧
    (restitutionCoefficient 0 1 = if (1 : ℝ) < |(0 : ℝ)| then 0.4 else 0) :=
  ⟨by simp [getLocalSpaceContacts, Quat.rotateVec, Quat.inv, Quat.conj,
      Quat.identity, Vec4.xyz, zero4, makeVector4, Vec3.cross],
   by norm_num [Vec3.dot, Vec3.cross],
   by norm_num [Vec3.dot, Vec3.cross],
   (c9_restitution ⟨⟨1, 1, 1⟩, 1, 0.5, 0.5⟩ ⟨⟨1, 1, 1⟩, 1, 0.5, 0.5⟩
      Quat.identity Quat.identity ⟨⟨0, 0, 0⟩, Quat.identity⟩
      ⟨⟨0, 0, 0⟩, Quat.identity⟩ ⟨⟨0, 0, 0⟩, ⟨0, 0, 0⟩⟩ ⟨⟨0, 0, 0⟩, ⟨0, 0, 0⟩⟩
      ⟨0, 1, [makeVector4 ⟨0, 0, 0⟩ 0], 1, ⟨0, 0, 1⟩, 0⟩ 1 0
      ⟨⟨0, 0, 0⟩, ⟨0, 0, 0⟩, ⟨0, 0, 0⟩, ⟨0, 0, 0⟩⟩ 0 ⟨0, 0, 0⟩ ⟨0, 0, 0⟩ 0 0
      (by simp [getLocalSpaceContacts, Quat.rotateVec, Quat.inv, Quat.conj,
        Quat.identity, Vec4.xyz, zero4, makeVector4, Vec3.cross])
      (by norm_num [Vec3.dot, Vec3.cross])
      (by norm_num [Vec3.dot, Vec3.cross]) 1 1 1 ⟨0, 0, -10⟩).1⟩

/-- C6 counterexample: a body with invMass = 0 but nonzero linear velocity
(1,0,0): `substepRigidBodies` still advances its position by `h·v`, so the
claim's "any starting velocity" is false — gravity is skipped for static
bodies but the position integration is not. -/
theorem c6_static_body_moves_cex :
    (substepRigidBodies 1 ⟨0, 0, -10⟩ 0 ⟨0, 0, 0⟩ ⟨0, 0, 0⟩ Quat.identity
        ⟨⟨1, 0, 0⟩, ⟨0, 0, 0⟩⟩).pos ≠ ⟨0, 0, 0⟩ := by
  unfold substepRigidBodies
  dsimp only
  rw [if_neg (lt_irrefl (0 : ℝ))]
  intro hcon
  have hx := congrArg Vec3.x hcon
  simp at hx

theorem foldl_preserves {α β : Type} (f : α → β → α) (P : α → Prop)
    (hf : ∀ a b, P a → P (f a b)) (l : List β) (a : α) (h : P a) :
    P (List.foldl f a l) := by
  induction l generalizing a with
  | nil => exact h
  | cons b t ih => exact ih (f a b) (hf a b h)

theorem applyPositionalUpdate_x1_static (st : PosSolveState) (r1 r2 : Vec3)
    (invM2 : ℝ) (invI1 invI2 : Vec3) (nW n1 n2 : Vec3) (c alphaT lam : ℝ)
    (chk : ℝ → Bool) :
    (applyPositionalUpdate st r1 r2 0 invM2 invI1 invI2 nW n1 n2 c alphaT lam
      chk).1.x1 = st.x1 := by
  unfold applyPositionalUpdate
  dsimp only
  split_ifs
  · rfl
  · simp

theorem applyPositionalUpdate_x2_static (st : PosSolveState) (r1 r2 : Vec3)
    (invM1 : ℝ) (invI1 invI2 : Vec3) (nW n1 n2 : Vec3) (c alphaT lam : ℝ)
    (chk : ℝ → Bool) :
    (applyPositionalUpdate st r1 r2 invM1 0 invI1 invI2 nW n1 n2 c alphaT lam
      chk).1.x2 = st.x2 := by
  unfold applyPositionalUpdate
  dsimp only
  split_ifs
  · rfl
  · simp

theorem handleContactConstraint_x1_static (st : PosSolveState)
    (prev1 prev2 : SubstepPrevState) (invM2 : ℝ) (invI1 invI2 : Vec3)
    (muS1 muS2 : ℝ) (r1 r2 nW : Vec3) (lN lT : ℝ) :
    (handleContactConstraint st prev1 prev2 0 invM2 invI1 invI2 muS1 muS2
      r1 r2 nW lN lT).1.x1 = st.x1 := by
  unfold handleContactConstraint
  dsimp only
  split_ifs
  · rfl
  · simp only [applyPositionalUpdate_x1_static]
  · simp only [applyPositionalUpdate_x1_static]

theorem handleContactConstraint_x2_static (st : PosSolveState)
    (prev1 prev2 : SubstepPrevState) (invM1 : ℝ) (invI1 invI2 : Vec3)
    (muS1 muS2 : ℝ) (r1 r2 nW : Vec3) (lN lT : ℝ) :
    (handleContactConstraint st prev1 prev2 invM1 0 invI1 invI2 muS1 muS2
      r1 r2 nW lN lT).1.x2 = st.x2 := by
  unfold handleContactConstraint
  dsimp only
  split_ifs
  · rfl
  · simp only [applyPositionalUpdate_x2_static]
  · simp only [applyPositionalUpdate_x2_static]

theorem Quat.normalize_of_normSq_one (q : Quat) (h : Quat.normSq q = 1) :
    Quat.normalize q = q := by
  unfold Quat.normalize
  rw [h, Real.sqrt_one]
  ext <;> simp

/-- C6 amended: a body with `invMass = 0` keeps its position and rotation
across `substepRigidBodies` provided its linear and angular velocities are
zero (with a unit-norm starting rotation); for arbitrary velocities the
position still advances by `h·v` (see the counterexample). Independently, the
positional solve (`handleContact`) leaves the position of whichever side has
`invMass = 0` unchanged, for every contact. -/
theorem c6_amended_static_body (h : ℝ) (g : Vec3) (invI : Vec3) (pos : Vec3)
    (rot : Quat) (vel : Velocity) (invM : ℝ) (hM : invM = 0)
    (hlin : vel.linear = 0) (hang : vel.angular = 0)
    (hunit : Quat.normSq rot = 1)
    (meta1 meta2 : RigidBodyMetadata) (prev1 prev2 : SubstepPrevState)
    (start1 start2 : SubstepStartState) (contact : Contact)
    (x1 x2 : Vec3) (q1 q2 : Quat) :
    ((substepRigidBodies h g invM invI pos rot vel).pos = pos ∧
     (substepRigidBodies h g invM invI pos rot vel).rot = rot) ∧
    (meta1.invMass = 0 →
      (handleContact meta1 meta2 prev1 prev2 start1 start2 contact
        x1 x2 q1 q2).1.x1 = x1) ∧
    (meta2.invMass = 0 →
      (handleContact meta1 meta2 prev1 prev2 start1 start2 contact
        x1 x2 q1 q2).1.x2 = x2) := by
  refine ⟨?_, ?_, ?_⟩
  · subst hM
    unfold substepRigidBodies
    dsimp only
    rw [if_neg (lt_irrefl (0 : ℝ)), hlin, hang]
    have hzero : (0 : Vec3) - Vec3.cross 0 (multDiag
        ⟨if invI.x = 0 then 0 else 1 / invI.x,
         if invI.y = 0 then 0 else 1 / invI.y,
         if invI.z = 0 then 0 else 1 / invI.z⟩ 0) = 0 := by
      simp
    constructor
    · ext <;> simp
    · rw [hzero]
      have hq : rot + Quat.fromAngularVec ((0.5 * h) •
          ((0 : Vec3) + h • multDiag invI 0)) * rot = rot := by
        ext <;> simp [Quat.fromAngularVec]
      rw [hq, Quat.normalize_of_normSq_one rot hunit]
  · intro hm1
    unfold handleContact
    dsimp only
    refine foldl_preserves _ (fun acc : PosSolveState × ℝ × ℝ => acc.1.x1 = x1) ?_ _ _ rfl
    intro acc i hacc
    unfold handleContactStep
    split_ifs with hi
    · rw [hm1, handleContactConstraint_x1_static]
      exact hacc
    · exact hacc
  · intro hm2
    unfold handleContact
    dsimp only
    refine foldl_preserves _ (fun acc : PosSolveState × ℝ × ℝ => acc.1.x2 = x2) ?_ _ _ rfl
    intro acc i hacc
    unfold handleContactStep
    split_ifs with hi
    · rw [hm2, handleContactConstraint_x2_static]
      exact hacc
    · exact hacc

/-- Witness for C6 amended: a static unit-rotation body at rest, and a
concrete contact between two static bodies. -/
theorem c6_amended_static_body_witness :
    ((0 : ℝ) = 0) ∧
    ((⟨⟨0, 0, 0⟩, ⟨0, 0, 0⟩⟩ : Velocity).linear = 0) ∧
    ((⟨⟨0, 0, 0⟩, ⟨0, 0, 0⟩⟩ : Velocity).angular = 0) ∧
    (Quat.normSq Quat.identity = 1) ∧
    ((⟨⟨1, 1, 1⟩, 0, 0.5, 0.5⟩ : RigidBodyMetadata).invMass = 0) ∧
    ((substepRigidBodies 1 ⟨0, 0, -10⟩ 0 ⟨1, 1, 1⟩ ⟨0, 0, 5⟩ Quat.identity
        ⟨⟨0, 0, 0⟩, ⟨0, 0, 0⟩⟩).pos = ⟨0, 0, 5⟩ ∧
     (substepRigidBodies 1 ⟨0, 0, -10⟩ 0 ⟨1, 1, 1⟩ ⟨0, 0, 5⟩ Quat.identity
        ⟨⟨0, 0, 0⟩, ⟨0, 0, 0⟩⟩).rot = Quat.identity) ∧
    ((handleContact ⟨⟨1, 1, 1⟩, 0, 0.5, 0.5⟩ ⟨⟨1, 1, 1⟩, 0, 0.5, 0.5⟩
        ⟨⟨0, 0, 0⟩, Quat.identity⟩ ⟨⟨0, 0, 0⟩, Quat.identity⟩
        ⟨⟨0, 0, 0⟩, Quat.identity⟩ ⟨⟨0, 0, 0⟩, Quat.identity⟩
        ⟨0, 1, [makeVector4 ⟨0, 0, 0⟩ 0], 1, ⟨0, 0, 1⟩, 0⟩
        ⟨0, 0, 5⟩ ⟨0, 0, 0⟩ Quat.identity Quat.identity).1.x1 = ⟨0, 0, 5⟩) :=
  ⟨rfl, rfl, rfl, by norm_num [Quat.normSq, Quat.identity], rfl,
   (c6_amended_static_body 1 ⟨0, 0, -10⟩ ⟨1, 1, 1⟩ ⟨0, 0, 5⟩ Quat.identity
      ⟨⟨0, 0, 0⟩, ⟨0, 0, 0⟩⟩ 0 rfl rfl rfl
      (by norm_num [Quat.normSq, Quat.identity])
      ⟨⟨1, 1, 1⟩, 0, 0.5, 0.5⟩ ⟨⟨1, 1, 1⟩, 0, 0.5, 0.5⟩
      ⟨⟨0, 0, 0⟩, Quat.identity⟩ ⟨⟨0, 0, 0⟩, Quat.identity⟩
      ⟨⟨0, 0, 0⟩, Quat.identity⟩ ⟨⟨0, 0, 0⟩, Quat.identity⟩
      ⟨0, 1, [makeVector4 ⟨0, 0, 0⟩ 0], 1, ⟨0, 0, 1⟩, 0⟩
      ⟨0, 0, 5⟩ ⟨0, 0, 0⟩ Quat.identity Quat.identity).1,
   (c6_amended_static_body 1 ⟨0, 0, -10⟩ ⟨1, 1, 1⟩ ⟨0, 0, 5⟩ Quat.identity
      ⟨⟨0, 0, 0⟩, ⟨0, 0, 0⟩⟩ 0 rfl rfl rfl
      (by norm_num [Quat.normSq, Quat.identity])
      ⟨⟨1, 1, 1⟩, 0, 0.5, 0.5⟩ ⟨⟨1, 1, 1⟩, 0, 0.5, 0.5⟩
      ⟨⟨0, 0, 0⟩, Quat.identity⟩ ⟨⟨0, 0, 0⟩, Quat.identity⟩
      ⟨⟨0, 0, 0⟩, Quat.identity⟩ ⟨⟨0, 0, 0⟩, Quat.identity⟩
      ⟨0, 1, [makeVector4 ⟨0, 0, 0⟩ 0], 1, ⟨0, 0, 1⟩, 0⟩
      ⟨0, 0, 5⟩ ⟨0, 0, 0⟩ Quat.identity Quat.identity).2.1 rfl⟩

end Madrona
